import Mathlib

set_option maxRecDepth 8000

/-
Verification of the numeric codec in pgx-woodsbury-decimal128 (src/decimal.go).

The repository adapts a 128-bit decimal value (the external package
github.com/ingothierack/decimal128) to the pgx driver's pgtype wire values.
The codec logic under verification lives in src/decimal.go: the plain
`Decimal` codec (ScanNumeric / NumericValue / ScanFloat64 / Float64Value /
ScanInt64 / Int64Value) and the `NullDecimal` wrapper with the same six
operations.

Go methods with pointer receivers (the Scan* decoders, which assign `*d = ...`
on success) are embedded as functions from the old destination state and the
wire input to a pair of (outcome, new destination state); an error outcome
paired with the unchanged state mirrors a Go `return err` before any
assignment.  A Go `panic` is a distinct `fatal` outcome.  Encoders, which in
Go return `(value, error)` tuples, are embedded as pairs of the wire value and
an optional error.

The external decimal128 and pgtype packages are not part of this repository;
their data types and the handful of decimal128 operations the codec calls are
modelled from the spec (each such definition carries a doc comment saying so).
-/

/-- Modelled from the spec: the wire numeric's infinity modifier, one of
finite / positive-infinity / negative-infinity (pgtype.InfinityModifier,
whose zero value is `finite`). -/
inductive pgtype.InfinityModifier where
  | finite
  | infinity
  | negativeInfinity
deriving DecidableEq

/-- Modelled from the spec: a 64-bit IEEE double as the codec observes it:
NaN, a signed infinity, or a finite value.  A finite double is represented
here by its shortest round-trip decimal rendering (sign, decimal digits,
decimal exponent) - exactly the string strconv.FormatFloat with precision -1
produces and the decimal type parses back; this rendering is a faithful
injective representation of finite doubles.  The binary significand/exponent
themselves are not modelled. -/
inductive GoFloat where
  | nan
  | inf (neg : Bool)
  | finite (sign : Bool) (coeff : ℕ) (exp : ℤ)
deriving DecidableEq

/-- Modelled from the spec: the decomposed wire numeric
(pgtype.Numeric): signed big-integer magnitude, base-10 exponent, NaN flag,
infinity modifier, validity flag.  Go's `Int *big.Int` together with the sign
handling collapses to a single ℤ; `Exp int32` is carried as ℤ (the codec never
arithmetically transforms it, so no 32-bit wraparound can occur). -/
structure pgtype.Numeric where
  Int : ℤ
  Exp : ℤ
  NaN : Bool
  InfinityModifier : pgtype.InfinityModifier
  Valid : Bool
deriving DecidableEq

/-- Modelled from the spec: the nullable wire double (pgtype.Float8). -/
structure pgtype.Float8 where
  Float64 : GoFloat
  Valid : Bool
deriving DecidableEq

/-- Modelled from the spec: the nullable wire 64-bit integer (pgtype.Int8).
`Int64 int64` is carried as ℤ; every value the codec stores into it is
range-checked before the store, so no 64-bit wraparound can occur. -/
structure pgtype.Int8 where
  Int64 : ℤ
  Valid : Bool
deriving DecidableEq

/-- Modelled from the spec: the external 128-bit decimal value
(decimal128.Decimal), with three logical states - finite, NaN, signed
infinity.  A finite value decomposes into (sign, coefficient, exponent) with
numeric value (-1)^sign * coefficient * 10^exponent; representable
coefficients have at most 34 decimal digits (coefficient < 10^34). -/
inductive decimal128.Decimal where
  | finite (sign : Bool) (coeff : ℕ) (exp : ℤ)
  | inf (neg : Bool)
  | nan
deriving DecidableEq

/-- Modelled from the spec: the numeric value of a finite decimal with the
given sign, coefficient and exponent, as a rational. -/
def decimal128.finiteVal (s : Bool) (c : ℕ) (e : ℤ) : ℚ :=
  (if s then (-1 : ℚ) else 1) * (c : ℚ) * (10 : ℚ) ^ e

/-- Modelled from the spec: the exact rational value of a decimal, defined on
the finite state only. -/
def decimal128.Decimal.toRat? : decimal128.Decimal → Option ℚ
  | .finite s c e => some (decimal128.finiteVal s c e)
  | _ => none

/-- Modelled from the spec: the zero value of the external decimal type
(Go `decimal128.Decimal{}`), which is the number zero. -/
def decimal128.zeroValue : decimal128.Decimal := .finite false 0 0

/-- Modelled from the spec: decimal128.FromInt64 builds the decimal with the
exact value of a 64-bit integer. -/
def decimal128.FromInt64 (i : ℤ) : decimal128.Decimal :=
  .finite (decide (i < 0)) i.natAbs 0

/-- Modelled from the spec: decimal128.Decimal.IsNaN. -/
def decimal128.Decimal.IsNaN : decimal128.Decimal → Bool
  | .nan => true
  | _ => false

/-- Modelled from the spec: decimal128.Decimal.Decompose (the Go decimal
decomposer contract) returns (form, sign, coefficient, exponent) where form 0
is finite, 1 infinite, 2 NaN; for non-finite forms the coefficient and
exponent are to be ignored (modelled as 0 here).  The coefficient, a
big-endian unsigned byte string in Go, is carried directly as ℕ (reading the
bytes back with big.Int.SetBytes yields exactly this natural number); the
scratch-buffer argument of the Go method is irrelevant to the value and is
omitted. -/
def decimal128.Decimal.Decompose : decimal128.Decimal → ℕ × Bool × ℕ × ℤ
  | .finite s c e => (0, s, c, e)
  | .inf s => (1, s, 0, 0)
  | .nan => (2, false, 0, 0)

/-- Modelled from the spec: decimal128.Decimal.Compose sets the decimal from
a decomposed (form, sign, coefficient, exponent); composition accepts any
representation of a representable value (coefficient < 10^34, exponent in the
decimal's range) and produces an equal decimal value.  The codec only ever
passes form 0. -/
def decimal128.Decimal.Compose (form : ℕ) (sign : Bool) (coeff : ℕ) (exp : ℤ) :
    decimal128.Decimal :=
  match form with
  | 0 => .finite sign coeff exp
  | 1 => .inf sign
  | _ => .nan

/-- The coefficient scaled by its exponent, as a natural number, when the
result is an integer: c * 10^e for e ≥ 0, c / 10^(-e) when that division is
exact, and none otherwise.  Helper for the integer-conversion model. -/
def decimal128.intOfScaled? (c : ℕ) (e : ℤ) : Option ℕ :=
  if 0 ≤ e then some (c * 10 ^ e.toNat)
  else if 10 ^ (-e).toNat ∣ c then some (c / 10 ^ (-e).toNat)
  else none

/-- Modelled from the spec: decimal128.Decimal.Int64 converts the decimal to
a 64-bit signed integer, reporting success exactly when the value is an
integer (no fractional part) that fits the signed 64-bit range (the spec:
"fails ... when the value has a fractional part or its magnitude exceeds the
64-bit signed range"). -/
def decimal128.Decimal.Int64? : decimal128.Decimal → Option ℤ
  | .finite s c e =>
    match decimal128.intOfScaled? c e with
    | some m =>
      let z : ℤ := if s then -(m : ℤ) else (m : ℤ)
      if -(2 ^ 63) ≤ z ∧ z < 2 ^ 63 then some z else none
    | none => none
  | _ => none

/-- Modelled from the spec: decimal128.Decimal.Int returns the integer part
of the decimal (truncation toward zero) as a big integer.  Only applied to
finite values by the codec paths under verification. -/
def decimal128.Decimal.Int : decimal128.Decimal → ℤ
  | .finite s c e =>
    let m : ℕ := if 0 ≤ e then c * 10 ^ e.toNat else c / 10 ^ (-e).toNat
    if s then -(m : ℤ) else (m : ℤ)
  | _ => 0

/-- Modelled from the spec: decimal128.Decimal.Float64 converts the decimal
to its nearest double.  The rounding to nearest-double is not modelled (no
claim settled here depends on it; the float-exactness claim is out of scope):
the conversion is represented componentwise. -/
def decimal128.Decimal.Float64 : decimal128.Decimal → GoFloat
  | .finite s c e => .finite s c e
  | .inf s => .inf s
  | .nan => .nan

/-- Modelled from the spec: value equality of decimals (the library's Equal):
finite values compare by exact numeric value, infinities by sign, and NaN is
equal to nothing. -/
def decimal128.Decimal.Equal : decimal128.Decimal → decimal128.Decimal → Bool
  | .finite s1 c1 e1, .finite s2 c2 e2 =>
    decide (decimal128.finiteVal s1 c1 e1 = decimal128.finiteVal s2 c2 e2)
  | .inf s1, .inf s2 => s1 == s2
  | _, _ => false

/-- Modelled from the spec: parsing the shortest round-trip decimal rendering
(sign, digits, exponent) of a finite double yields the decimal with exactly
those digits (a double's shortest rendering has at most 17 significant
digits, well inside the 34-digit capacity, so decimal128.MustParse is exact
here).  This is the MustParse(FormatFloat(f, -1)) composition of the source. -/
def parseShortestRendering (s : Bool) (c : ℕ) (e : ℤ) : decimal128.Decimal :=
  .finite s c e

/-- The error taxonomy of the codec: the identity of each error value
returned by src/decimal.go.  The non-finite errors carry the datum that Go
formats into the message (the infinity modifier, respectively the sign of the
infinite float), so distinct infinities yield distinct errors. -/
inductive DecodeError where
  | nullValue
  | notANumber
  | nonFiniteNumeric (m : pgtype.InfinityModifier)
  | nonFiniteFloat (neg : Bool)
  | rangeError
deriving DecidableEq

/-- Outcome of a decode call: normal return with nil error, return of an
error value, or a Go panic (fatal). -/
inductive ScanOutcome where
  | ok
  | error (e : DecodeError)
  | fatal (msg : String)
deriving DecidableEq

/-- src/decimal.go: `errScanNull` ("cannot scan NULL into *decimal128.Decimal"). -/
def errScanNull : DecodeError := .nullValue

/-- src/decimal.go: `errScanNaN` ("cannot scan NaN into *decimal128.Decimal"). -/
def errScanNaN : DecodeError := .notANumber

/-- src/decimal.go `type Decimal decimal128.Decimal`: the plain codec type is
a zero-cost reinterpretation of the library decimal. -/
abbrev Decimal := decimal128.Decimal

/-- src/decimal.go `NullDecimal`: a decimal paired with a validity flag. -/
structure NullDecimal where
  Decimal : decimal128.Decimal
  Valid : Bool
deriving DecidableEq

/-- src/decimal.go composeDecimal: rebuild a decimal from a wire numeric,
taking the sign from Int.Sign() < 0 and the magnitude bytes from Int.Bytes()
(= the absolute value). -/
def composeDecimal (v : pgtype.Numeric) : decimal128.Decimal :=
  if v.Int < 0 then decimal128.Decimal.Compose 0 true v.Int.natAbs v.Exp
  else decimal128.Decimal.Compose 0 false v.Int.natAbs v.Exp

/-- src/decimal.go (*Decimal).ScanNumeric.  The condition
`v.Int.BitLen() > 128` of the source holds exactly when |Int| ≥ 2^128, which
is how the guard is written here. -/
def Decimal.ScanNumeric (d : Decimal) (v : pgtype.Numeric) : ScanOutcome × Decimal :=
  if v.Valid = false then (.error errScanNull, d)
  else if v.NaN = true then (.error errScanNaN, d)
  else if v.InfinityModifier ≠ pgtype.InfinityModifier.finite then
    (.error (.nonFiniteNumeric v.InfinityModifier), d)
  else if 2 ^ 128 ≤ v.Int.natAbs then (.fatal "bitlen outside of range", d)
  else (.ok, composeDecimal v)

/-- src/decimal.go Decimal.NumericValue: decompose and map the form through
the source's switch (0 to finite, 1 to Infinity, 2-with-sign to
NegativeInfinity, anything else - including 2 without sign, where the Go
`inf` variable keeps its zero value - to finite). -/
def modifierOfForm (form : ℕ) (sign : Bool) : pgtype.InfinityModifier :=
  match form with
  | 0 => .finite
  | 1 => .infinity
  | 2 => if sign then .negativeInfinity else .finite
  | _ => .finite

/-- src/decimal.go Decimal.NumericValue. -/
def Decimal.NumericValue (d : Decimal) : pgtype.Numeric × Option DecodeError :=
  match decimal128.Decimal.Decompose d with
  | (form, sign, coeff, exp) =>
    let z : ℤ := if sign then -(coeff : ℤ) else (coeff : ℤ)
    ({ Int := z, Exp := exp, NaN := false,
       InfinityModifier := modifierOfForm form sign, Valid := true }, none)

/-- src/decimal.go (*Decimal).ScanFloat64. -/
def Decimal.ScanFloat64 (d : Decimal) (v : pgtype.Float8) : ScanOutcome × Decimal :=
  if v.Valid = false then (.error errScanNull, d)
  else
    match v.Float64 with
    | .nan => (.error errScanNaN, d)
    | .inf neg => (.error (.nonFiniteFloat neg), d)
    | .finite s c e => (.ok, parseShortestRendering s c e)

/-- src/decimal.go Decimal.Float64Value. -/
def Decimal.Float64Value (d : Decimal) : pgtype.Float8 × Option DecodeError :=
  ({ Float64 := decimal128.Decimal.Float64 d, Valid := true }, none)

/-- src/decimal.go (*Decimal).ScanInt64. -/
def Decimal.ScanInt64 (d : Decimal) (v : pgtype.Int8) : ScanOutcome × Decimal :=
  if v.Valid = false then (.ok, decimal128.zeroValue)
  else (.ok, decimal128.FromInt64 v.Int64)

/-- src/decimal.go Decimal.Int64Value. -/
def Decimal.Int64Value (d : Decimal) : pgtype.Int8 × Option DecodeError :=
  if decimal128.Decimal.IsNaN d then ({ Int64 := 0, Valid := false }, none)
  else
    match decimal128.Decimal.Int64? d with
    | some z => ({ Int64 := z, Valid := true }, none)
    | none => ({ Int64 := 0, Valid := false }, some .rangeError)

/-- src/decimal.go (*NullDecimal).ScanNumeric.  Unlike the plain decoder it
has no magnitude guard. -/
def NullDecimal.ScanNumeric (d : NullDecimal) (v : pgtype.Numeric) :
    ScanOutcome × NullDecimal :=
  if v.Valid = false then (.ok, ⟨decimal128.zeroValue, false⟩)
  else if v.NaN = true then (.error errScanNaN, d)
  else if v.InfinityModifier ≠ pgtype.InfinityModifier.finite then
    (.error (.nonFiniteNumeric v.InfinityModifier), d)
  else (.ok, ⟨composeDecimal v, true⟩)

/-- src/decimal.go NullDecimal.NumericValue: invalid and NaN inputs both
yield the zero wire numeric with nil error; otherwise the decomposed form is
discarded (the InfinityModifier of the result is always the zero value,
finite). -/
def NullDecimal.NumericValue (d : NullDecimal) : pgtype.Numeric × Option DecodeError :=
  if d.Valid = false then
    ({ Int := 0, Exp := 0, NaN := false,
       InfinityModifier := .finite, Valid := false }, none)
  else if decimal128.Decimal.IsNaN d.Decimal then
    ({ Int := 0, Exp := 0, NaN := false,
       InfinityModifier := .finite, Valid := false }, none)
  else
    match decimal128.Decimal.Decompose d.Decimal with
    | (_, sign, coeff, exp) =>
      let z : ℤ := if sign then -(coeff : ℤ) else (coeff : ℤ)
      ({ Int := z, Exp := exp, NaN := false,
         InfinityModifier := .finite, Valid := true }, none)

/-- src/decimal.go (*NullDecimal).ScanFloat64. -/
def NullDecimal.ScanFloat64 (d : NullDecimal) (v : pgtype.Float8) :
    ScanOutcome × NullDecimal :=
  if v.Valid = false then (.ok, ⟨decimal128.zeroValue, false⟩)
  else
    match v.Float64 with
    | .nan => (.error errScanNaN, d)
    | .inf neg => (.error (.nonFiniteFloat neg), d)
    | .finite s c e => (.ok, ⟨parseShortestRendering s c e, true⟩)

/-- src/decimal.go NullDecimal.Float64Value. -/
def NullDecimal.Float64Value (d : NullDecimal) : pgtype.Float8 × Option DecodeError :=
  if d.Valid = false then ({ Float64 := GoFloat.finite false 0 0, Valid := false }, none)
  else ({ Float64 := decimal128.Decimal.Float64 d.Decimal, Valid := true }, none)

/-- src/decimal.go (*NullDecimal).ScanInt64. -/
def NullDecimal.ScanInt64 (d : NullDecimal) (v : pgtype.Int8) :
    ScanOutcome × NullDecimal :=
  if v.Valid = false then (.ok, ⟨decimal128.zeroValue, false⟩)
  else (.ok, ⟨decimal128.FromInt64 v.Int64, true⟩)

/-- src/decimal.go NullDecimal.Int64Value: converts through the truncated
integer part (decimal128.Decimal.Int) and the big-integer IsInt64 range
check, unlike the plain codec's exact Int64 conversion. -/
def NullDecimal.Int64Value (d : NullDecimal) : pgtype.Int8 × Option DecodeError :=
  if d.Valid = false then ({ Int64 := 0, Valid := false }, none)
  else if decimal128.Decimal.IsNaN d.Decimal then ({ Int64 := 0, Valid := false }, none)
  else
    let bi := decimal128.Decimal.Int d.Decimal
    if -(2 ^ 63) ≤ bi ∧ bi < 2 ^ 63 then ({ Int64 := bi, Valid := true }, none)
    else ({ Int64 := 0, Valid := false }, some .rangeError)

/-- Claim C2: on the plain Decimal codec, Numeric and Float decode of an
input with validity flag false fail with the NullValue error, of a NaN input
with the NotANumber error, and of an infinite input with a NonFiniteValue
error that carries which infinity (so the two infinities yield distinct
errors); each of these conditions is an ordinary returned error, and the
float decoder has no fatal path at all. -/
theorem plain_decode_error_taxonomy (d : Decimal) (v : pgtype.Numeric) (f : pgtype.Float8) :
    (v.Valid = false → (Decimal.ScanNumeric d v).1 = .error DecodeError.nullValue) ∧
    (v.Valid = true → v.NaN = true →
      (Decimal.ScanNumeric d v).1 = .error DecodeError.notANumber) ∧
    (v.Valid = true → v.NaN = false → v.InfinityModifier ≠ pgtype.InfinityModifier.finite →
      (Decimal.ScanNumeric d v).1 = .error (.nonFiniteNumeric v.InfinityModifier)) ∧
    (DecodeError.nonFiniteNumeric .infinity ≠ DecodeError.nonFiniteNumeric .negativeInfinity) ∧
    (f.Valid = false → (Decimal.ScanFloat64 d f).1 = .error DecodeError.nullValue) ∧
    (f.Valid = true → f.Float64 = GoFloat.nan →
      (Decimal.ScanFloat64 d f).1 = .error DecodeError.notANumber) ∧
    (∀ neg, f.Valid = true → f.Float64 = GoFloat.inf neg →
      (Decimal.ScanFloat64 d f).1 = .error (.nonFiniteFloat neg)) ∧
    (DecodeError.nonFiniteFloat false ≠ DecodeError.nonFiniteFloat true) ∧
    (∀ e msg, (ScanOutcome.error e) ≠ ScanOutcome.fatal msg) ∧
    (∀ msg, (Decimal.ScanFloat64 d f).1 ≠ ScanOutcome.fatal msg) := by
  refine ⟨?_, ?_, ?_, by decide, ?_, ?_, ?_, by decide, ?_, ?_⟩
  · intro h; simp [Decimal.ScanNumeric, h, errScanNull]
  · intro h1 h2; simp [Decimal.ScanNumeric, h1, h2, errScanNaN]
  · intro h1 h2 h3; simp [Decimal.ScanNumeric, h1, h2, h3]
  · intro h; simp [Decimal.ScanFloat64, h, errScanNull]
  · intro h1 h2; simp [Decimal.ScanFloat64, h1, h2, errScanNaN]
  · intro neg h1 h2; simp [Decimal.ScanFloat64, h1, h2]
  · intro e msg h; exact ScanOutcome.noConfusion h
  · intro msg
    obtain ⟨fl, fvalid⟩ := f
    cases fvalid <;> cases fl <;>
      simp [Decimal.ScanFloat64, errScanNull, errScanNaN]

/-- Witness for claim C2 at a concrete null input. -/
theorem plain_decode_error_taxonomy_witness :
    (Decimal.ScanNumeric decimal128.zeroValue
      { Int := 0, Exp := 0, NaN := false, InfinityModifier := .finite, Valid := false }).1
      = .error DecodeError.nullValue :=
  (plain_decode_error_taxonomy decimal128.zeroValue
    { Int := 0, Exp := 0, NaN := false, InfinityModifier := .finite, Valid := false }
    { Float64 := GoFloat.nan, Valid := true }).1 rfl

/-- Claim C7: null-in-null-out for every codec wrapped by NullDecimal -
decoding a wire value with validity flag false yields the invalid zero
NullDecimal with no error, and encoding an invalid NullDecimal yields a wire
value with validity flag false and no error. -/
theorem null_in_null_out (nd : NullDecimal) (n e : ℤ) (nn : Bool)
    (m : pgtype.InfinityModifier) (g : GoFloat) (i : ℤ) (dec : decimal128.Decimal) :
    NullDecimal.ScanNumeric nd
      { Int := n, Exp := e, NaN := nn, InfinityModifier := m, Valid := false }
      = (.ok, ⟨decimal128.zeroValue, false⟩) ∧
    NullDecimal.ScanFloat64 nd { Float64 := g, Valid := false }
      = (.ok, ⟨decimal128.zeroValue, false⟩) ∧
    NullDecimal.ScanInt64 nd { Int64 := i, Valid := false }
      = (.ok, ⟨decimal128.zeroValue, false⟩) ∧
    NullDecimal.NumericValue ⟨dec, false⟩
      = ({ Int := 0, Exp := 0, NaN := false, InfinityModifier := .finite, Valid := false },
          none) ∧
    NullDecimal.Float64Value ⟨dec, false⟩
      = ({ Float64 := GoFloat.finite false 0 0, Valid := false }, none) ∧
    NullDecimal.Int64Value ⟨dec, false⟩ = ({ Int64 := 0, Valid := false }, none) :=
  ⟨rfl, rfl, rfl, rfl, rfl, rfl⟩

/-- Claim C8: plain Integer decode of a null wire int8 sets the destination
to the zero decimal value with no error, unlike the Numeric and Float
decoders, whose null decode on the plain type returns the NullValue error. -/
theorem plain_scanInt64_null_to_zero (d : Decimal) (i n e : ℤ) (nn : Bool)
    (m : pgtype.InfinityModifier) (g : GoFloat) :
    Decimal.ScanInt64 d { Int64 := i, Valid := false } = (.ok, decimal128.zeroValue) ∧
    (Decimal.ScanNumeric d
      { Int := n, Exp := e, NaN := nn, InfinityModifier := m, Valid := false }).1
      = .error DecodeError.nullValue ∧
    (Decimal.ScanFloat64 d { Float64 := g, Valid := false }).1
      = .error DecodeError.nullValue :=
  ⟨rfl, rfl, rfl⟩

/-- Claim C10: whenever a decode operation (ScanNumeric, ScanFloat64,
ScanInt64, on Decimal or NullDecimal) returns an error, the destination it
was called on is unchanged. -/
theorem scan_error_leaves_destination (d : Decimal) (nd : NullDecimal)
    (v : pgtype.Numeric) (f : pgtype.Float8) (i : pgtype.Int8) (e : DecodeError) :
    ((Decimal.ScanNumeric d v).1 = .error e → (Decimal.ScanNumeric d v).2 = d) ∧
    ((Decimal.ScanFloat64 d f).1 = .error e → (Decimal.ScanFloat64 d f).2 = d) ∧
    ((Decimal.ScanInt64 d i).1 = .error e → (Decimal.ScanInt64 d i).2 = d) ∧
    ((NullDecimal.ScanNumeric nd v).1 = .error e → (NullDecimal.ScanNumeric nd v).2 = nd) ∧
    ((NullDecimal.ScanFloat64 nd f).1 = .error e → (NullDecimal.ScanFloat64 nd f).2 = nd) ∧
    ((NullDecimal.ScanInt64 nd i).1 = .error e → (NullDecimal.ScanInt64 nd i).2 = nd) := by
  obtain ⟨fl, fvalid⟩ := f
  refine ⟨?_, ?_, ?_, ?_, ?_, ?_⟩
  · unfold Decimal.ScanNumeric; split_ifs <;> simp
  · cases fvalid <;> cases fl <;> simp [Decimal.ScanFloat64]
  · unfold Decimal.ScanInt64; split_ifs <;> simp
  · unfold NullDecimal.ScanNumeric; split_ifs <;> simp
  · cases fvalid <;> cases fl <;> simp [NullDecimal.ScanFloat64]
  · unfold NullDecimal.ScanInt64; split_ifs <;> simp

/-- Witness for claim C10: a concrete erroring decode leaves the destination
untouched. -/
theorem scan_error_leaves_destination_witness :
    (Decimal.ScanNumeric (.finite false 7 0)
      { Int := 0, Exp := 0, NaN := true, InfinityModifier := .finite, Valid := true }).2
      = decimal128.Decimal.finite false 7 0 :=
  (scan_error_leaves_destination (.finite false 7 0) ⟨decimal128.zeroValue, false⟩
    { Int := 0, Exp := 0, NaN := true, InfinityModifier := .finite, Valid := true }
    { Float64 := GoFloat.nan, Valid := true } { Int64 := 0, Valid := true }
    DecodeError.notANumber).1 (by decide)

/-- Claim C4 (amended): encoding a NaN plain Decimal to wire Int8 does not
attempt the conversion: Int64Value returns an invalid (validity-false) zero
wire integer with nil error - the same NaN-to-NULL mapping as the Nullable
wrapper. -/
theorem int64Value_nan_maps_to_null :
    Decimal.Int64Value decimal128.Decimal.nan = ({ Int64 := 0, Valid := false }, none) ∧
    NullDecimal.Int64Value ⟨decimal128.Decimal.nan, true⟩
      = ({ Int64 := 0, Valid := false }, none) :=
  ⟨rfl, rfl⟩

/-- Counterexample to claim C4 as stated: for the NaN plain Decimal,
Int64Value returns nil error (and an invalid result) instead of attempting
the conversion and failing with the RangeError the claim requires for a value
not representable as a 64-bit integer. -/
theorem int64Value_nan_counterexample :
    (Decimal.Int64Value decimal128.Decimal.nan).2 = none ∧
    (Decimal.Int64Value decimal128.Decimal.nan).1.Valid = false :=
  ⟨rfl, rfl⟩

/-- Counterexample to claim C3 as stated: the valid finite wire numeric with
magnitude 10^34 - a 35-digit coefficient, exceeding the decimal's 34-digit
representable coefficient range - does not take the fatal path: decode
returns ok, because the source's guard only fires at bit length above 128
(magnitude at least 2^128). -/
theorem scanNumeric_no_fatal_at_35_digits :
    (Decimal.ScanNumeric decimal128.zeroValue
      { Int := 10 ^ 34, Exp := 0, NaN := false, InfinityModifier := .finite, Valid := true }).1
      = ScanOutcome.ok := by
  decide

/-- Claim C3 (amended): for a valid, non-NaN, finite-modifier wire numeric,
Numeric decode takes the fatal (process-fatal, non-recoverable) path exactly
when the magnitude's bit length exceeds 128, i.e. |Int| ≥ 2^128; every
smaller magnitude - including 35-to-39-digit coefficients that already exceed
the decimal's 34-digit representable range - avoids the fatal path. -/
theorem scanNumeric_fatal_iff_bitlen (d : Decimal) (v : pgtype.Numeric)
    (h1 : v.Valid = true) (h2 : v.NaN = false)
    (h3 : v.InfinityModifier = pgtype.InfinityModifier.finite) :
    ((Decimal.ScanNumeric d v).1 = ScanOutcome.fatal "bitlen outside of range"
      ↔ 2 ^ 128 ≤ v.Int.natAbs) ∧
    (v.Int.natAbs < 2 ^ 128 → (Decimal.ScanNumeric d v).1 = ScanOutcome.ok) := by
  have heval : Decimal.ScanNumeric d v =
      if 2 ^ 128 ≤ v.Int.natAbs then (ScanOutcome.fatal "bitlen outside of range", d)
      else (ScanOutcome.ok, composeDecimal v) := by
    unfold Decimal.ScanNumeric
    rw [h1, h2, h3, if_neg (show ¬(true = false) by simp),
      if_neg (show ¬(false = true) by simp),
      if_neg (show
        ¬(pgtype.InfinityModifier.finite ≠ pgtype.InfinityModifier.finite) by simp)]
  rw [heval]
  by_cases hc : 2 ^ 128 ≤ v.Int.natAbs
  · rw [if_pos hc]
    exact ⟨⟨fun _ => hc, fun _ => rfl⟩, fun hlt => absurd hc (by omega)⟩
  · rw [if_neg hc]
    exact ⟨⟨fun hfat => ScanOutcome.noConfusion hfat, fun hle => absurd hle hc⟩,
      fun _ => rfl⟩

/-- Witness for claim C3 (amended): a 2^128 magnitude takes the fatal path. -/
theorem scanNumeric_fatal_iff_bitlen_witness :
    (Decimal.ScanNumeric decimal128.zeroValue
      { Int := 2 ^ 128, Exp := 0, NaN := false, InfinityModifier := .finite, Valid := true }).1
      = ScanOutcome.fatal "bitlen outside of range" :=
  (scanNumeric_fatal_iff_bitlen decimal128.zeroValue
    { Int := 2 ^ 128, Exp := 0, NaN := false, InfinityModifier := .finite, Valid := true }
    rfl rfl rfl).1.mpr (by decide)

/-- Counterexample to claim C6 as stated: on the valid wrapper holding 1.5
(coefficient 15, exponent -1), NullDecimal.Int64Value succeeds with the
truncated value 1 and nil error, while plain Decimal.Int64Value of the same
value fails with the RangeError - the wrapper does not fail where the claim
requires a RangeError for a value with a fractional part. -/
theorem nullDecimal_int64_fractional_counterexample :
    NullDecimal.Int64Value ⟨.finite false 15 (-1), true⟩
      = ({ Int64 := 1, Valid := true }, none) ∧
    Decimal.Int64Value (.finite false 15 (-1))
      = ({ Int64 := 0, Valid := false }, some DecodeError.rangeError) := by
  exact ⟨by decide, by decide⟩

/-- Helper: the scaled-coefficient integer extraction agrees with the exact
rational value c * 10^e. -/
theorem intOfScaled_some_iff (c m : ℕ) (e : ℤ) :
    decimal128.intOfScaled? c e = some m ↔ (c : ℚ) * (10 : ℚ) ^ e = (m : ℚ) := by
  unfold decimal128.intOfScaled?
  by_cases h : 0 ≤ e
  · rw [if_pos h]
    obtain ⟨k, rfl⟩ : ∃ k : ℕ, e = (k : ℤ) := ⟨e.toNat, (Int.toNat_of_nonneg h).symm⟩
    rw [show ((k : ℤ)).toNat = k from Int.toNat_natCast k, zpow_natCast,
      Option.some_inj,
      show (c : ℚ) * (10 : ℚ) ^ k = ((c * 10 ^ k : ℕ) : ℚ) by push_cast; ring,
      Nat.cast_inj]
  · rw [if_neg h]
    set k := (-e).toNat with hkdef
    have hkk : (k : ℤ) = -e := Int.toNat_of_nonneg (by omega)
    have he : e = -(k : ℤ) := by omega
    rw [he, zpow_neg, zpow_natCast,
      show (10 : ℚ) ^ k = ((10 ^ k : ℕ) : ℚ) by push_cast; ring,
      ← div_eq_mul_inv,
      div_eq_iff (show ((10 ^ k : ℕ) : ℚ) ≠ 0 by positivity),
      show (m : ℚ) * ((10 ^ k : ℕ) : ℚ) = ((m * 10 ^ k : ℕ) : ℚ) by push_cast; ring,
      Nat.cast_inj]
    constructor
    · intro hsome
      by_cases hd : 10 ^ k ∣ c
      · rw [if_pos hd, Option.some_inj] at hsome
        rw [← hsome, Nat.div_mul_cancel hd]
      · rw [if_neg hd] at hsome
        exact Option.noConfusion hsome
    · intro heq
      have hd : 10 ^ k ∣ c := heq ▸ dvd_mul_left _ m
      rw [if_pos hd, Option.some_inj, heq,
        Nat.mul_div_cancel m (by positivity)]

/-- Helper: evaluation of the exact Int64 conversion on a finite decimal. -/
theorem int64_eval (s : Bool) (c : ℕ) (e : ℤ) :
    decimal128.Decimal.Int64? (.finite s c e)
      = match decimal128.intOfScaled? c e with
        | some m =>
          if -(2 ^ 63) ≤ (if s then -(m : ℤ) else (m : ℤ))
              ∧ (if s then -(m : ℤ) else (m : ℤ)) < 2 ^ 63
          then some (if s then -(m : ℤ) else (m : ℤ)) else none
        | none => none := by
  cases hm : decimal128.intOfScaled? c e <;> simp only [decimal128.Decimal.Int64?, hm]

/-- Helper: a finite decimal whose exact value is the integer z in the signed
64-bit range converts to exactly z under the exact Int64 conversion. -/
theorem int64_of_val (s : Bool) (c : ℕ) (e : ℤ) (z : ℤ)
    (hval : decimal128.finiteVal s c e = (z : ℚ))
    (hlo : -(2 ^ 63) ≤ z) (hhi : z < 2 ^ 63) :
    decimal128.Decimal.Int64? (.finite s c e) = some z := by
  have hnn : (0 : ℚ) ≤ (c : ℚ) * (10 : ℚ) ^ e := by positivity
  cases s with
  | false =>
    have hz : (c : ℚ) * (10 : ℚ) ^ e = (z : ℚ) := by
      rw [← hval]; simp [decimal128.finiteVal]
    have hz0 : 0 ≤ z := by
      have h0 : (0 : ℚ) ≤ (z : ℚ) := by rw [← hz]; exact hnn
      exact_mod_cast h0
    have hza : ((z.natAbs : ℕ) : ℤ) = z := by omega
    have hm : (c : ℚ) * (10 : ℚ) ^ e = ((z.natAbs : ℕ) : ℚ) := by
      rw [hz, show ((z.natAbs : ℕ) : ℚ) = (((z.natAbs : ℕ) : ℤ) : ℚ) from
        (Int.cast_natCast _).symm, hza]
    have hsome := (intOfScaled_some_iff c z.natAbs e).mpr hm
    rw [int64_eval, hsome]
    show (if -(2 ^ 63) ≤ ((z.natAbs : ℕ) : ℤ) ∧ ((z.natAbs : ℕ) : ℤ) < 2 ^ 63
        then some ((z.natAbs : ℕ) : ℤ) else none) = some z
    rw [hza, if_pos ⟨hlo, hhi⟩]
  | true =>
    have hz : (c : ℚ) * (10 : ℚ) ^ e = ((-z : ℤ) : ℚ) := by
      push_cast
      rw [← hval]; simp [decimal128.finiteVal]
    have hz0 : 0 ≤ -z := by
      have h0 : (0 : ℚ) ≤ ((-z : ℤ) : ℚ) := by rw [← hz]; exact hnn
      exact_mod_cast h0
    have hza : -((z.natAbs : ℕ) : ℤ) = z := by omega
    have hm : (c : ℚ) * (10 : ℚ) ^ e = ((z.natAbs : ℕ) : ℚ) := by
      have h2 : ((z.natAbs : ℕ) : ℤ) = -z := by omega
      rw [hz, show ((z.natAbs : ℕ) : ℚ) = (((z.natAbs : ℕ) : ℤ) : ℚ) from
        (Int.cast_natCast _).symm, h2]
    have hsome := (intOfScaled_some_iff c z.natAbs e).mpr hm
    rw [int64_eval, hsome]
    show (if -(2 ^ 63) ≤ -((z.natAbs : ℕ) : ℤ) ∧ -((z.natAbs : ℕ) : ℤ) < 2 ^ 63
        then some (-((z.natAbs : ℕ) : ℤ)) else none) = some z
    rw [hza, if_pos ⟨hlo, hhi⟩]

/-- Helper: whenever the exact Int64 conversion succeeds with z, the
decimal's exact value is z and z is in the signed 64-bit range. -/
theorem val_of_int64 (s : Bool) (c : ℕ) (e : ℤ) (z : ℤ)
    (h : decimal128.Decimal.Int64? (.finite s c e) = some z) :
    decimal128.finiteVal s c e = (z : ℚ) ∧ -(2 ^ 63) ≤ z ∧ z < 2 ^ 63 := by
  rw [int64_eval] at h
  cases hm : decimal128.intOfScaled? c e with
  | none =>
    rw [hm] at h
    exact Option.noConfusion h
  | some m =>
    rw [hm] at h
    have hval : (c : ℚ) * (10 : ℚ) ^ e = (m : ℚ) := (intOfScaled_some_iff c m e).mp hm
    replace h : (if -(2 ^ 63) ≤ (if s then -(m : ℤ) else (m : ℤ))
          ∧ (if s then -(m : ℤ) else (m : ℤ)) < 2 ^ 63
        then some (if s then -(m : ℤ) else (m : ℤ)) else none) = some z := h
    by_cases hr : -(2 ^ 63) ≤ (if s then -(m : ℤ) else (m : ℤ))
        ∧ (if s then -(m : ℤ) else (m : ℤ)) < 2 ^ 63
    · rw [if_pos hr, Option.some_inj] at h
      subst h
      refine ⟨?_, hr⟩
      cases s with
      | false =>
        show decimal128.finiteVal false c e = (((m : ℕ) : ℤ) : ℚ)
        rw [show (((m : ℕ) : ℤ) : ℚ) = (m : ℚ) from Int.cast_natCast _, ← hval]
        simp [decimal128.finiteVal]
      | true =>
        show decimal128.finiteVal true c e = ((-((m : ℕ) : ℤ) : ℤ) : ℚ)
        rw [show ((-((m : ℕ) : ℤ) : ℤ) : ℚ) = -(m : ℚ) by push_cast; ring, ← hval]
        simp [decimal128.finiteVal]
    · rw [if_neg hr] at h
      exact Option.noConfusion h

/-- Helper: evaluation of the plain Numeric decoder on a valid, non-NaN,
finite-modifier wire numeric whose magnitude is below the fatal guard. -/
theorem scanNumeric_valid_finite (d : Decimal) (v : pgtype.Numeric)
    (h1 : v.Valid = true) (h2 : v.NaN = false)
    (h3 : v.InfinityModifier = pgtype.InfinityModifier.finite)
    (h4 : v.Int.natAbs < 2 ^ 128) :
    Decimal.ScanNumeric d v = (ScanOutcome.ok, composeDecimal v) := by
  unfold Decimal.ScanNumeric
  rw [h1, h2, h3, if_neg (show ¬(true = false) by simp),
    if_neg (show ¬(false = true) by simp),
    if_neg (show ¬(pgtype.InfinityModifier.finite ≠ pgtype.InfinityModifier.finite) by simp),
    if_neg (show ¬(2 ^ 128 ≤ v.Int.natAbs) by omega)]

/-- Helper: evaluation of composeDecimal (always form 0, sign from the
big-integer sign, magnitude from the absolute value). -/
theorem composeDecimal_eval (v : pgtype.Numeric) :
    composeDecimal v
      = if v.Int < 0 then decimal128.Decimal.finite true v.Int.natAbs v.Exp
        else decimal128.Decimal.finite false v.Int.natAbs v.Exp := by
  unfold composeDecimal decimal128.Decimal.Compose
  split_ifs <;> rfl

/-- Helper: evaluation of the plain Int64 encoder on a non-NaN decimal. -/
theorem int64Value_eval (d : decimal128.Decimal)
    (hnan : decimal128.Decimal.IsNaN d = false) :
    Decimal.Int64Value d
      = match decimal128.Decimal.Int64? d with
        | some z => ({ Int64 := z, Valid := true }, none)
        | none => ({ Int64 := 0, Valid := false }, some DecodeError.rangeError) := by
  unfold Decimal.Int64Value
  rw [hnan, if_neg (show ¬(false = true) by simp)]

/-- Claim C5: encoding a non-NaN plain Decimal to wire Int8 succeeds with
validity true and the exact integer value precisely when the decimal's value
is an integer in the signed 64-bit range, and fails with the RangeError
otherwise (fractional part, out of range, or infinite); in particular
9223372036854775807 and -9223372036854775808 encode exactly, while
9223372036854775808 fails with the RangeError. -/
theorem int64Value_exact (d : decimal128.Decimal)
    (hnan : decimal128.Decimal.IsNaN d = false) :
    (∀ z : ℤ, decimal128.Decimal.toRat? d = some ((z : ℤ) : ℚ) →
      -(2 ^ 63) ≤ z → z < 2 ^ 63 →
      Decimal.Int64Value d = ({ Int64 := z, Valid := true }, none)) ∧
    ((¬ ∃ z : ℤ, decimal128.Decimal.toRat? d = some ((z : ℤ) : ℚ)
        ∧ -(2 ^ 63) ≤ z ∧ z < 2 ^ 63) →
      Decimal.Int64Value d
        = ({ Int64 := 0, Valid := false }, some DecodeError.rangeError)) ∧
    Decimal.Int64Value (.finite false (2 ^ 63 - 1) 0)
      = ({ Int64 := 2 ^ 63 - 1, Valid := true }, none) ∧
    Decimal.Int64Value (.finite true (2 ^ 63) 0)
      = ({ Int64 := -(2 ^ 63), Valid := true }, none) ∧
    Decimal.Int64Value (.finite false (2 ^ 63) 0)
      = ({ Int64 := 0, Valid := false }, some DecodeError.rangeError) := by
  refine ⟨?_, ?_, by decide, by decide, by decide⟩
  · intro z hz hlo hhi
    cases d with
    | nan => simp [decimal128.Decimal.IsNaN] at hnan
    | inf b =>
      rw [show decimal128.Decimal.toRat? (.inf b) = none from rfl] at hz
      exact Option.noConfusion hz
    | finite s c e =>
      rw [show decimal128.Decimal.toRat? (.finite s c e)
          = some (decimal128.finiteVal s c e) from rfl, Option.some_inj] at hz
      rw [int64Value_eval _ hnan, int64_of_val s c e z hz hlo hhi]
  · intro hno
    cases d with
    | nan => simp [decimal128.Decimal.IsNaN] at hnan
    | inf b =>
      rw [int64Value_eval _ hnan,
        show decimal128.Decimal.Int64? (.inf b) = none from rfl]
    | finite s c e =>
      rw [int64Value_eval _ hnan]
      cases hI : decimal128.Decimal.Int64? (.finite s c e) with
      | none => rfl
      | some z =>
        exfalso
        obtain ⟨hv, hlo, hhi⟩ := val_of_int64 s c e z hI
        exact hno ⟨z, by
          rw [show decimal128.Decimal.toRat? (.finite s c e)
            = some (decimal128.finiteVal s c e) from rfl, hv], hlo, hhi⟩

/-- Witness for claim C5: the integer 5 encodes exactly. -/
theorem int64Value_exact_witness :
    Decimal.Int64Value (.finite false 5 0) = ({ Int64 := 5, Valid := true }, none) :=
  (int64Value_exact (.finite false 5 0) rfl).1 5
    (by
      rw [show decimal128.Decimal.toRat? (.finite false 5 0)
        = some (decimal128.finiteVal false 5 0) from rfl, Option.some_inj]
      norm_num [decimal128.finiteVal])
    (by norm_num) (by norm_num)

/-- Helper: the recomposed decimal of the round trip equals the original in
value (the only discrepancy, a negative zero, is equal in value to zero). -/
theorem roundTrip_equal (s : Bool) (c : ℕ) (e : ℤ) :
    decimal128.Decimal.Equal
      (if (if s then -(c : ℤ) else (c : ℤ)) < 0
        then decimal128.Decimal.finite true ((if s then -(c : ℤ) else (c : ℤ))).natAbs e
        else decimal128.Decimal.finite false ((if s then -(c : ℤ) else (c : ℤ))).natAbs e)
      (.finite s c e) = true := by
  cases s with
  | false =>
    rw [if_neg (show ¬((if false then -(c : ℤ) else (c : ℤ)) < 0) by simp)]
    simp [decimal128.Decimal.Equal]
  | true =>
    rcases c with _ | k
    · rw [if_neg (show ¬((if true then -((0 : ℕ) : ℤ) else ((0 : ℕ) : ℤ)) < 0) by simp)]
      simp [decimal128.Decimal.Equal, decimal128.finiteVal]
    · rw [if_pos (show (if true then -((k + 1 : ℕ) : ℤ) else ((k + 1 : ℕ) : ℤ)) < 0 from by
        show -((k + 1 : ℕ) : ℤ) < 0
        omega)]
      have hab : ((if true then -((k + 1 : ℕ) : ℤ) else ((k + 1 : ℕ) : ℤ))).natAbs = k + 1 := by
        show ((-((k + 1 : ℕ) : ℤ))).natAbs = k + 1
        omega
      rw [hab]
      simp [decimal128.Decimal.Equal]

/-- Claim C1: round trip - for every finite decimal whose coefficient is
within the decimal's representable range (under 10^34, hence far below the
wire guard 2^128) and whose exponent is in the wire numeric's int32 exponent
range, encoding with NumericValue (nil error) and decoding the resulting wire
numeric with ScanNumeric succeeds and yields a decimal equal in value to the
original. -/
theorem numeric_roundTrip (d0 : decimal128.Decimal) (s : Bool) (c : ℕ) (e : ℤ)
    (hc : c < 10 ^ 34) (he1 : -(2 ^ 31) ≤ e) (he2 : e < 2 ^ 31) :
    (Decimal.NumericValue (.finite s c e)).2 = none ∧
    (Decimal.ScanNumeric d0 (Decimal.NumericValue (.finite s c e)).1).1
      = ScanOutcome.ok ∧
    decimal128.Decimal.Equal
      (Decimal.ScanNumeric d0 (Decimal.NumericValue (.finite s c e)).1).2
      (.finite s c e) = true := by
  have henc1 : (Decimal.NumericValue (.finite s c e)).1
      = { Int := if s then -(c : ℤ) else (c : ℤ), Exp := e, NaN := false,
          InfinityModifier := .finite, Valid := true } := rfl
  have habs : ((if s then -(c : ℤ) else (c : ℤ))).natAbs = c := by
    cases s <;> simp
  have h34 : (10 : ℕ) ^ 34 < 2 ^ 128 := by norm_num
  have hscan := scanNumeric_valid_finite d0
    { Int := if s then -(c : ℤ) else (c : ℤ), Exp := e, NaN := false,
      InfinityModifier := .finite, Valid := true } rfl rfl rfl (by
        show ((if s then -(c : ℤ) else (c : ℤ))).natAbs < 2 ^ 128
        omega)
  refine ⟨rfl, ?_, ?_⟩
  · rw [henc1, hscan]
  · rw [henc1, hscan, composeDecimal_eval]
    exact roundTrip_equal s c e

/-- Witness for claim C1: the value -12.345 round-trips. -/
theorem numeric_roundTrip_witness :
    (Decimal.ScanNumeric decimal128.zeroValue
      (Decimal.NumericValue (.finite true 12345 (-3))).1).1 = ScanOutcome.ok ∧
    decimal128.Decimal.Equal
      (Decimal.ScanNumeric decimal128.zeroValue
        (Decimal.NumericValue (.finite true 12345 (-3))).1).2
      (.finite true 12345 (-3)) = true :=
  ⟨(numeric_roundTrip decimal128.zeroValue true 12345 (-3)
      (by norm_num) (by norm_num) (by norm_num)).2.1,
   (numeric_roundTrip decimal128.zeroValue true 12345 (-3)
      (by norm_num) (by norm_num) (by norm_num)).2.2⟩

/-- Claim C6 (amended): for wire inputs with validity flag true, the
NullDecimal decode operations fail under exactly the same conditions and with
the same error identities as the plain Decimal decode operations (the plain
Numeric decoder's extra fatal path is not an error return, and the Integer
decoders never error); the encode operations, however, differ beyond
messages: NullDecimal.Int64Value succeeds with the truncated integer part on
finite values with a fractional part whose integer part fits the signed
64-bit range (where plain Decimal.Int64Value fails with the RangeError), and
NullDecimal.NumericValue always emits the finite infinity modifier, while
Decimal.NumericValue emits the positive-Infinity modifier for infinite
values. -/
theorem nullDecimal_vs_plain_amended (nd : NullDecimal) (d : decimal128.Decimal)
    (v : pgtype.Numeric) (f : pgtype.Float8) (i : pgtype.Int8) (er : DecodeError)
    (s : Bool) (c : ℕ) (ex : ℤ) :
    (v.Valid = true →
      ((NullDecimal.ScanNumeric nd v).1 = .error er
        ↔ (Decimal.ScanNumeric d v).1 = .error er)) ∧
    (f.Valid = true →
      ((NullDecimal.ScanFloat64 nd f).1 = .error er
        ↔ (Decimal.ScanFloat64 d f).1 = .error er)) ∧
    ((NullDecimal.ScanInt64 nd i).1 = ScanOutcome.ok
      ∧ (Decimal.ScanInt64 d i).1 = ScanOutcome.ok) ∧
    (ex < 0 → ¬ (10 ^ (-ex).toNat ∣ c) →
      -(2 ^ 63) ≤ (if s then -((c / 10 ^ (-ex).toNat : ℕ) : ℤ)
        else ((c / 10 ^ (-ex).toNat : ℕ) : ℤ)) →
      (if s then -((c / 10 ^ (-ex).toNat : ℕ) : ℤ)
        else ((c / 10 ^ (-ex).toNat : ℕ) : ℤ)) < 2 ^ 63 →
      NullDecimal.Int64Value ⟨.finite s c ex, true⟩
        = ({ Int64 := if s then -((c / 10 ^ (-ex).toNat : ℕ) : ℤ)
              else ((c / 10 ^ (-ex).toNat : ℕ) : ℤ), Valid := true }, none)
      ∧ Decimal.Int64Value (.finite s c ex)
        = ({ Int64 := 0, Valid := false }, some DecodeError.rangeError)) ∧
    ((NullDecimal.NumericValue ⟨d, true⟩).1.InfinityModifier
      = pgtype.InfinityModifier.finite) ∧
    (∀ sb : Bool, (Decimal.NumericValue (.inf sb)).1.InfinityModifier
      = pgtype.InfinityModifier.infinity) := by
  have htf : ¬(true = false) := by simp
  refine ⟨?_, ?_, ?_, ?_, ?_, ?_⟩
  · intro hval
    unfold NullDecimal.ScanNumeric Decimal.ScanNumeric
    rw [hval, if_neg htf, if_neg htf]
    by_cases hnan : v.NaN = true
    · rw [if_pos hnan, if_pos hnan]
    · rw [if_neg hnan, if_neg hnan]
      by_cases hinf : v.InfinityModifier ≠ pgtype.InfinityModifier.finite
      · rw [if_pos hinf, if_pos hinf]
      · rw [if_neg hinf, if_neg hinf]
        by_cases hbig : 2 ^ 128 ≤ v.Int.natAbs
        · rw [if_pos hbig]
          simp
        · rw [if_neg hbig]
  · intro hfval
    obtain ⟨fl, fv⟩ := f
    have hfv2 : fv = true := hfval
    subst hfv2
    cases fl <;> simp [NullDecimal.ScanFloat64, Decimal.ScanFloat64]
  · constructor
    · unfold NullDecimal.ScanInt64; split_ifs <;> rfl
    · unfold Decimal.ScanInt64; split_ifs <;> rfl
  · intro hex hdvd hlo hhi
    constructor
    · unfold NullDecimal.Int64Value
      rw [if_neg (show
          ¬((⟨decimal128.Decimal.finite s c ex, true⟩ : NullDecimal).Valid = false)
          by simp)]
      rw [if_neg (show ¬(decimal128.Decimal.IsNaN
          (⟨decimal128.Decimal.finite s c ex, true⟩ : NullDecimal).Decimal = true)
          by simp [decimal128.Decimal.IsNaN])]
      have hInt : decimal128.Decimal.Int (.finite s c ex)
          = if s then -((c / 10 ^ (-ex).toNat : ℕ) : ℤ)
            else ((c / 10 ^ (-ex).toNat : ℕ) : ℤ) := by
        simp only [decimal128.Decimal.Int]
        rw [if_neg (show ¬(0 ≤ ex) by omega)]
      show (if -(2 ^ 63) ≤ decimal128.Decimal.Int (.finite s c ex)
            ∧ decimal128.Decimal.Int (.finite s c ex) < 2 ^ 63
          then (({ Int64 := decimal128.Decimal.Int (.finite s c ex),
                   Valid := true } : pgtype.Int8), (none : Option DecodeError))
          else (({ Int64 := 0, Valid := false } : pgtype.Int8),
                 some DecodeError.rangeError)) = _
      rw [hInt, if_pos ⟨hlo, hhi⟩]
    · have hnone : decimal128.Decimal.Int64? (.finite s c ex) = none := by
        rw [int64_eval, show decimal128.intOfScaled? c ex = none from by
          unfold decimal128.intOfScaled?
          rw [if_neg (show ¬(0 ≤ ex) by omega), if_neg hdvd]]
      rw [int64Value_eval (.finite s c ex) rfl, hnone]
  · unfold NullDecimal.NumericValue
    rw [if_neg (show ¬((⟨d, true⟩ : NullDecimal).Valid = false) by simp)]
    by_cases hn : decimal128.Decimal.IsNaN (⟨d, true⟩ : NullDecimal).Decimal = true
    · rw [if_pos hn]
    · rw [if_neg hn]
  · intro sb
    rfl

/-- Witness for claim C6 (amended): a valid NaN wire numeric errors
identically through the wrapper and the plain decoder. -/
theorem nullDecimal_vs_plain_amended_witness :
    (NullDecimal.ScanNumeric ⟨decimal128.zeroValue, false⟩
      { Int := 0, Exp := 0, NaN := true, InfinityModifier := .finite, Valid := true }).1
      = .error DecodeError.notANumber :=
  ((nullDecimal_vs_plain_amended ⟨decimal128.zeroValue, false⟩ decimal128.zeroValue
      { Int := 0, Exp := 0, NaN := true, InfinityModifier := .finite, Valid := true }
      { Float64 := GoFloat.nan, Valid := true } { Int64 := 0, Valid := true }
      DecodeError.notANumber false 0 0).1 rfl).mpr (by decide)
